import Mathlib

/-!
Verification development for the recordings-viewer repository.

The definitions below are a shallow embedding of the session discovery and
aggregation engine (`src/lib/s3.ts`), the session metadata / notes store
(`src/lib/s3.ts`), and the client-side caption merger and audio analyzer
(`src/app/session/[id]/page.tsx`).  JavaScript strings are modelled through
their character lists, numbers through `Nat`/`Int`/`Rat`, the object store
through an association list from keys to parsed document values, and
exceptions through `Except`.
-/

/-! ## String utilities (JS `String.prototype` semantics over char lists) -/

/-- Char is one of the ten ASCII digits; models the regex class `\d`. -/
def isDigitCh (c : Char) : Bool :=
  c == '0' || c == '1' || c == '2' || c == '3' || c == '4' ||
  c == '5' || c == '6' || c == '7' || c == '8' || c == '9'

/-- `listPrefEq n h` is true when the list `n` is an initial segment of `h`. -/
def listPrefEq : List Char → List Char → Bool
  | [], _ => true
  | _ :: _, [] => false
  | a :: as, b :: bs => a == b && listPrefEq as bs

/-- `listSub n h` is true when `n` occurs contiguously inside `h`. -/
def listSub (n : List Char) : List Char → Bool
  | [] => listPrefEq n []
  | c :: cs => listPrefEq n (c :: cs) || listSub n cs

/-- JS `hay.includes(needle)`. -/
def strContains (hay needle : String) : Bool := listSub needle.data hay.data

/-- JS `s.startsWith(pre)`; used to model an object listing scoped by a key
prefix, which by the store's contract returns exactly the keys starting with
that prefix. -/
def strHasPref (pre s : String) : Bool := listPrefEq pre.data s.data

/-- JS `s.split(sep)` for a one-character separator. -/
def splitOnChar (sep : Char) : List Char → List (List Char)
  | [] => [[]]
  | c :: cs =>
    if c = sep then [] :: splitOnChar sep cs
    else match splitOnChar sep cs with
      | [] => [[c]]
      | h :: t => (c :: h) :: t

/-- JS `key.split('/')`. -/
def splitParts (s : String) : List String := (splitOnChar '/' s.data).map String.mk

/-- Numeric value of a validated digit character. -/
def digitVal (c : Char) : Nat :=
  if c == '1' then 1 else if c == '2' then 2 else if c == '3' then 3 else
  if c == '4' then 4 else if c == '5' then 5 else if c == '6' then 6 else
  if c == '7' then 7 else if c == '8' then 8 else if c == '9' then 9 else 0

/-- JS `parseInt` / `Number` restricted to the all-digit strings on which the
source applies it (the year/month/day segments and the HH-MM-SS components are
regex-validated before conversion). -/
def numOf (s : String) : Nat := s.data.foldl (fun n c => n * 10 + digitVal c) 0

/-! ## Key Parser (`src/lib/s3.ts`: `getFileType`, `parseFullId`) -/

/-- The `SessionFile['type']` union of `src/lib/s3.ts`. -/
inductive FileType where
  | screenVideo
  | screenAudio
  | cameraVideo
  | audioRaw
  | audioClean
  | transcriptionScreen
  | transcriptionRaw
  | transcriptionClean
  | unknown
deriving DecidableEq

/-- `getFileType` of `src/lib/s3.ts`: substring matching against the fixed
table of path fragments, in source order. -/
def getFileType (key : String) : FileType :=
  if strContains key "screen/video" then .screenVideo
  else if strContains key "screen/audio.wav" then .screenAudio
  else if strContains key "screen/audio.vtt" then .transcriptionScreen
  else if strContains key "camera/video" then .cameraVideo
  else if strContains key "audio/raw.wav" then .audioRaw
  else if strContains key "audio/raw.vtt" then .transcriptionRaw
  else if strContains key "audio/clean.wav" then .audioClean
  else if strContains key "audio/clean.vtt" then .transcriptionClean
  else .unknown

/-- Result record of `parseFullId`. -/
structure FullIdParts where
  time : String
  displayId : String
deriving DecidableEq

/-- The four characters JS regex `.` does not match when the `s` flag is
absent: LF, CR, LINE SEPARATOR and PARAGRAPH SEPARATOR. -/
def isLineTerm (c : Char) : Bool :=
  c == '\n' || c == '\r' || c == '\u2028' || c == '\u2029'

/-- The anchored regex `^(\d{2}-\d{2}-\d{2})_(.+)$` of `parseFullId`: the
first group is fixed-width (8 chars), the second is the non-empty remainder
after the underscore, in which `.` (no `s` flag) rules out every line
terminator. -/
def fullIdMatch : List Char → Option (List Char × List Char)
  | a :: b :: c :: d :: e :: f :: g :: h :: u :: r :: rs =>
    if isDigitCh a && isDigitCh b && (c == '-') &&
       isDigitCh d && isDigitCh e && (f == '-') &&
       isDigitCh g && isDigitCh h && (u == '_') &&
       (r :: rs).all (fun ch => !isLineTerm ch)
    then some ([a, b, c, d, e, f, g, h], r :: rs)
    else none
  | _ => none

/-- `parseFullId` of `src/lib/s3.ts`: on a regex match return the captured
time and display id, otherwise fall back to `00-00-00` and the raw input. -/
def parseFullId (s : String) : FullIdParts :=
  match fullIdMatch s.data with
  | some (t, r) => ⟨String.mk t, String.mk r⟩
  | none => ⟨"00-00-00", s⟩

/-- Whether the `parseFullId` regex matches at all. -/
def matchesFullId (s : String) : Bool := (fullIdMatch s.data).isSome

/-- The shape `\d{2}-\d{2}-\d{2}` of a folder-name time component. -/
def timeShape (s : String) : Bool :=
  match s.data with
  | [a, b, c, d, e, f, g, h] =>
    isDigitCh a && isDigitCh b && (c == '-') &&
    isDigitCh d && isDigitCh e && (f == '-') &&
    isDigitCh g && isDigitCh h
  | _ => false

/-! ## Session Aggregator (`src/lib/s3.ts`: `listSessions`) -/

/-- One tuple of an object listing: `{Key, Size, LastModified}` with the
fields present (`lastModified` is an epoch-millisecond stand-in for `Date`,
which as a JS object is always truthy). -/
structure S3Obj where
  key : String
  size : Nat
  lastModified : Nat
deriving DecidableEq

/-- `SessionFile` of `src/lib/s3.ts`. -/
structure SessionFile where
  key : String
  size : Nat
  lastModified : Nat
  type : FileType
deriving DecidableEq

/-- `SessionMetadata` of `src/lib/s3.ts` (`score` is `number | null`). -/
structure SessionMetadata where
  favorite : Bool
  score : Option Int
deriving DecidableEq

/-- The arguments handed to `new Date(year, month-1, day, hours, minutes,
seconds)` when building the session timestamp; kept as a tuple since no claim
depends on calendar arithmetic. -/
structure Timestamp where
  year : Int
  monthIndex : Int
  day : Int
  hours : Nat
  minutes : Nat
  seconds : Nat
deriving DecidableEq

/-- `Session` of `src/lib/s3.ts`; the `prefix` field is called `path` here. -/
structure Session where
  id : String
  fullId : String
  org : String
  device : String
  year : String
  month : String
  day : String
  time : String
  path : String
  timestamp : Timestamp
  files : List SessionFile
  hasScreenVideo : Bool
  hasScreenAudio : Bool
  hasCameraVideo : Bool
  hasAudioRaw : Bool
  hasAudioClean : Bool
  hasTranscriptionScreen : Bool
  hasTranscriptionRaw : Bool
  hasTranscriptionClean : Bool
  totalSize : Nat
  metadata : SessionMetadata
deriving DecidableEq

/-- The year/month/day/folder segments extracted from a key. -/
structure KeyParts where
  year : String
  month : String
  day : String
  fullId : String
deriving DecidableEq

/-- The `\d{4}` test applied to the year segment. -/
def isDigit4 (s : String) : Bool :=
  match s.data with
  | [a, b, c, d] => isDigitCh a && isDigitCh b && isDigitCh c && isDigitCh d
  | _ => false

/-- The `\d{2}` test applied to the month and day segments. -/
def isDigit2 (s : String) : Bool :=
  match s.data with
  | [a, b] => isDigitCh a && isDigitCh b
  | _ => false

/-- Key validation of the `listSessions` loop: split on `/`, require at least
7 segments, then validate the dated segments; `none` means the object is
skipped. -/
def parseKey (key : String) : Option KeyParts :=
  let parts := splitParts key
  if parts.length < 7 then none
  else
    let y := parts.getD 2 ""
    let m := parts.getD 3 ""
    let d := parts.getD 4 ""
    if isDigit4 y && isDigit2 m && isDigit2 d then some ⟨y, m, d, parts.getD 5 ""⟩
    else none

/-- The whole per-object admission test of the `listSessions` loop, including
the leading `if (!obj.Key || !obj.Size || !obj.LastModified) continue` guard:
an empty key and a zero size are falsy and cause a skip (`LastModified`, a
`Date` object, is always truthy once present). -/
def objAccepted (o : S3Obj) : Option KeyParts :=
  if o.key = "" ∨ o.size = 0 then none else parseKey o.key

/-- The session map key `org/device/year/month/day/fullId`. -/
def sessionPath (org device : String) (kp : KeyParts) : String :=
  org ++ "/" ++ device ++ "/" ++ kp.year ++ "/" ++ kp.month ++ "/" ++ kp.day ++ "/" ++ kp.fullId

/-- `time.split('-').map(Number)` destructured into hours/minutes/seconds,
with the `|| 0` fallbacks. -/
def timeTriple (time : String) : Nat × Nat × Nat :=
  let ps := splitParts time |>.map numOf
  (ps.getD 0 0, ps.getD 1 0, ps.getD 2 0)

/-- Arguments of the `new Date(...)` call building the session timestamp. -/
def mkTimestamp (kp : KeyParts) (time : String) : Timestamp :=
  let ps := (splitOnChar '-' time.data).map (fun l => numOf (String.mk l))
  ⟨(numOf kp.year : Int), (numOf kp.month : Int) - 1, (numOf kp.day : Int),
    ps.getD 0 0, ps.getD 1 0, ps.getD 2 0⟩

/-- The fresh `Session` record created on first sight of a prefix. -/
def freshSession (org device : String) (kp : KeyParts) : Session :=
  let fp := parseFullId kp.fullId
  { id := fp.displayId
    fullId := kp.fullId
    org := org
    device := device
    year := kp.year
    month := kp.month
    day := kp.day
    time := fp.time
    path := sessionPath org device kp
    timestamp := mkTimestamp kp fp.time
    files := []
    hasScreenVideo := false
    hasScreenAudio := false
    hasCameraVideo := false
    hasAudioRaw := false
    hasAudioClean := false
    hasTranscriptionScreen := false
    hasTranscriptionRaw := false
    hasTranscriptionClean := false
    totalSize := 0
    metadata := ⟨false, none⟩ }

/-- The `SessionFile` pushed for one object. -/
def mkFile (o : S3Obj) : SessionFile := ⟨o.key, o.size, o.lastModified, getFileType o.key⟩

/-- One object's contribution to its session: push the file, add the size,
and run the `switch (fileType)` that sets the matching presence flag. -/
def addObj (s : Session) (o : S3Obj) : Session :=
  let t := getFileType o.key
  { s with
    files := s.files ++ [mkFile o]
    totalSize := s.totalSize + o.size
    hasScreenVideo := s.hasScreenVideo || (t == FileType.screenVideo)
    hasScreenAudio := s.hasScreenAudio || (t == FileType.screenAudio)
    hasCameraVideo := s.hasCameraVideo || (t == FileType.cameraVideo)
    hasAudioRaw := s.hasAudioRaw || (t == FileType.audioRaw)
    hasAudioClean := s.hasAudioClean || (t == FileType.audioClean)
    hasTranscriptionScreen := s.hasTranscriptionScreen || (t == FileType.transcriptionScreen)
    hasTranscriptionRaw := s.hasTranscriptionRaw || (t == FileType.transcriptionRaw)
    hasTranscriptionClean := s.hasTranscriptionClean || (t == FileType.transcriptionClean) }

/-- The `Map<string, Session>` of `listSessions`, in insertion order. -/
abbrev SessionsMap := List (String × Session)

/-- `Map.get`. -/
def mapFind : SessionsMap → String → Option Session
  | [], _ => none
  | (k, s) :: rest, p => if k = p then some s else mapFind rest p

/-- The body of the `listSessions` loop for one listed object: skip it when
the admission test fails, otherwise create the session on first sight and
mutate the stored record in place. -/
def processObj (org device : String) (m : SessionsMap) (o : S3Obj) : SessionsMap :=
  match objAccepted o with
  | none => m
  | some kp =>
    let p := sessionPath org device kp
    let m' := if (mapFind m p).isSome then m else m ++ [(p, freshSession org device kp)]
    m'.map (fun e => if e.1 = p then (p, addObj e.2 o) else e)

/-- The full aggregation pass of `listSessions` over the concatenated pages
of the listing (the final timestamp sort permutes records only and is not
part of the grouping behavior). -/
def aggregate (org device : String) (objs : List S3Obj) : SessionsMap :=
  objs.foldl (processObj org device) []

/-- A default record used only as the `Option.getD` fallback in statements
comparing two aggregation runs. -/
def emptySession : Session :=
  { id := ""
    fullId := ""
    org := ""
    device := ""
    year := ""
    month := ""
    day := ""
    time := ""
    path := ""
    timestamp := ⟨0, 0, 0, 0, 0, 0⟩
    files := []
    hasScreenVideo := false
    hasScreenAudio := false
    hasCameraVideo := false
    hasAudioRaw := false
    hasAudioClean := false
    hasTranscriptionScreen := false
    hasTranscriptionRaw := false
    hasTranscriptionClean := false
    totalSize := 0
    metadata := ⟨false, none⟩ }

/-- Whether an accepted object lands at the session map key `p`. -/
def objHitsPath (org device p : String) (o : S3Obj) : Bool :=
  match objAccepted o with
  | some kp => decide (sessionPath org device kp = p)
  | none => false

/-- The accepted objects of a listing that land at map key `p`. -/
def objsAt (org device p : String) (objs : List S3Obj) : List S3Obj :=
  objs.filter (objHitsPath org device p)

/-- The fresh session an object would create (fallback value off the accepted
path; every field inspected by the claims is identical in both branches). -/
def freshFor (org device : String) (o : S3Obj) : Session :=
  match objAccepted o with
  | some kp => freshSession org device kp
  | none => emptySession

/-! ## Object store and Session Metadata Store (`src/lib/s3.ts`) -/

/-- `NoteResource` of `src/lib/s3.ts`. -/
inductive NoteResource where
  | global
  | screenVideo
  | screenAudio
  | cameraVideo
  | audioRaw
  | audioClean
deriving DecidableEq

/-- `Note` of `src/lib/s3.ts`. -/
structure Note where
  id : String
  timestamp : Int
  resource : NoteResource
  content : String
  createdAt : String
deriving DecidableEq

/-- A stored object as seen through `getFileBuffer` followed by
`JSON.parse`:  a metadata document (each field `none` when absent or null, so
that `?? false` / `?? null` apply), a notes array, some other parseable JSON
(reads of typed fields fall through to the defaults), or bytes on which
`JSON.parse` throws. -/
inductive ObjVal where
  | metaDoc (favorite : Option Bool) (score : Option Int)
  | notesDoc (notes : List Note)
  | jsonOther
  | malformed
deriving DecidableEq

/-- The bucket: keys with contents, in listing (lexicographic) order. -/
abbrev Store := List (String × ObjVal)

/-- `getObject` lookup: the first entry with the key. -/
def storeGet : Store → String → Option ObjVal
  | [], _ => none
  | (k, v) :: rest, key => if k = key then some v else storeGet rest key

/-- `putObject`: overwrite the existing entry in place, or append a fresh
key at the end of the listing. -/
def storePut (st : Store) (key : String) (v : ObjVal) : Store :=
  if (storeGet st key).isSome then
    st.map (fun e => if e.1 = key then (key, v) else e)
  else st ++ [(key, v)]

/-- The per-key test of `findSessionPrefix`: at least 6 segments and segment
5 equal to the requested folder name. -/
def keyMatchesSession (fullId key : String) : Bool :=
  let parts := splitParts key
  decide (6 ≤ parts.length) && decide (parts.getD 5 "" = fullId)

/-- The session path reconstructed from a matching key's first 6 segments. -/
def pathOfKey (key : String) : String :=
  let parts := splitParts key
  parts.getD 0 "" ++ "/" ++ parts.getD 1 "" ++ "/" ++ parts.getD 2 "" ++ "/" ++
    parts.getD 3 "" ++ "/" ++ parts.getD 4 "" ++ "/" ++ parts.getD 5 ""

/-- The scan of `findSessionPrefix` over the listed keys, returning the first
match's reconstructed path. -/
def scanForSession (fullId : String) : List String → Option String
  | [] => none
  | k :: ks => if keyMatchesSession fullId k then some (pathOfKey k) else scanForSession fullId ks

/-- `findSessionPrefix` of `src/lib/s3.ts`: list every object under
`org/device/` and scan for the folder name. -/
def findSessionPath (st : Store) (org device fullId : String) : Option String :=
  scanForSession fullId (((st.map Prod.fst).filter (strHasPref (org ++ "/" ++ device ++ "/"))))

/-- Reading a stored value as a metadata document:
`{favorite: data.favorite ?? false, score: data.score ?? null}`, with
`JSON.parse` failure as the error case. -/
def readMetaVal : ObjVal → Except Unit SessionMetadata
  | .metaDoc fav sc => .ok ⟨fav.getD false, sc⟩
  | .notesDoc _ => .ok ⟨false, none⟩
  | .jsonOther => .ok ⟨false, none⟩
  | .malformed => .error ()

/-- The body of `getSessionMetadata` before its catch-all: resolve the
session, require `metadata.json` to exist (a missing object makes
`getFileBuffer` throw), and parse it. -/
def getSessionMetadataE (st : Store) (org device fullId : String) : Except Unit SessionMetadata :=
  match findSessionPath st org device fullId with
  | none => .ok ⟨false, none⟩
  | some p =>
    match storeGet st (p ++ "/metadata.json") with
    | none => .error ()
    | some v => readMetaVal v

/-- `getSessionMetadata` of `src/lib/s3.ts`: any failure is caught and
replaced with the defaults. -/
def getSessionMetadata (st : Store) (org device fullId : String) : SessionMetadata :=
  match getSessionMetadataE st org device fullId with
  | .ok m => m
  | .error _ => ⟨false, none⟩

/-- `Partial<SessionMetadata>`: each field either absent or supplied. -/
structure MetaUpdate where
  favorite : Option Bool := none
  score : Option (Option Int) := none
deriving DecidableEq

/-- The spread `{...existing, ...updates}`. -/
def mergeMeta (m : SessionMetadata) (u : MetaUpdate) : SessionMetadata :=
  ⟨u.favorite.getD m.favorite, u.score.getD m.score⟩

/-- `updateSessionMetadata` of `src/lib/s3.ts`: throw `Session not found`
when the prefix does not resolve (leaving the store untouched), otherwise
read-merge-write the whole document and return the merged value. -/
def updateSessionMetadata (st : Store) (org device fullId : String) (u : MetaUpdate) :
    Except String SessionMetadata × Store :=
  match findSessionPath st org device fullId with
  | none => (.error "Session not found", st)
  | some p =>
    let existing := getSessionMetadata st org device fullId
    let updated := mergeMeta existing u
    (.ok updated, storePut st (p ++ "/metadata.json") (.metaDoc (some updated.favorite) updated.score))

/-- Reading a stored value as the notes array:
`Array.isArray(data) ? data : []`, with `JSON.parse` failure as the error. -/
def readNotesVal : ObjVal → Except Unit (List Note)
  | .notesDoc ns => .ok ns
  | .metaDoc _ _ => .ok []
  | .jsonOther => .ok []
  | .malformed => .error ()

/-- `getSessionNotes` of `src/lib/s3.ts`: empty array when the session does
not resolve, the document is missing, or it fails to parse. -/
def getSessionNotes (st : Store) (org device fullId : String) : List Note :=
  match findSessionPath st org device fullId with
  | none => []
  | some p =>
    match storeGet st (p ++ "/notes.json") with
    | none => []
    | some v =>
      match readNotesVal v with
      | .ok ns => ns
      | .error _ => []

/-- `saveSessionNotes` of `src/lib/s3.ts`: throws when the session does not
resolve, otherwise writes the whole array. -/
def saveSessionNotes (st : Store) (org device fullId : String) (ns : List Note) :
    Except String Store :=
  match findSessionPath st org device fullId with
  | none => .error "Session not found"
  | some p => .ok (storePut st (p ++ "/notes.json") (.notesDoc ns))

/-- `Partial<Pick<Note, 'content' | 'timestamp' | 'resource'>>`. -/
structure NoteUpdate where
  content : Option String := none
  timestamp : Option Int := none
  resource : Option NoteResource := none
deriving DecidableEq

/-- The spread `{...notes[index], ...updates}`. -/
def applyNoteUpdate (n : Note) (u : NoteUpdate) : Note :=
  { n with
    content := u.content.getD n.content
    timestamp := u.timestamp.getD n.timestamp
    resource := u.resource.getD n.resource }

/-- Placeholder used only under an index already known to be in bounds. -/
def dummyNote : Note := ⟨"", 0, NoteResource.global, "", ""⟩

/-- `updateNote` of `src/lib/s3.ts`: locate the note by id
(`findIndex`, `none` for `-1`), return `null` without writing when absent,
otherwise rewrite the whole array with that one entry merged. -/
def updateNote (st : Store) (org device fullId noteId : String) (u : NoteUpdate) :
    Except String (Option Note × Store) :=
  let ns := getSessionNotes st org device fullId
  match ns.findIdx? (fun n => n.id == noteId) with
  | none => .ok (none, st)
  | some i =>
    let n' := applyNoteUpdate (ns.getD i dummyNote) u
    (saveSessionNotes st org device fullId (ns.set i n')).map (fun st' => (some n', st'))

/-- `deleteNote` of `src/lib/s3.ts`: locate by id, return `false` without
writing when absent, otherwise splice out that one entry and rewrite. -/
def deleteNote (st : Store) (org device fullId noteId : String) :
    Except String (Bool × Store) :=
  let ns := getSessionNotes st org device fullId
  match ns.findIdx? (fun n => n.id == noteId) with
  | none => .ok (false, st)
  | some i =>
    (saveSessionNotes st org device fullId (ns.eraseIdx i)).map (fun st' => (true, st'))

/-! ## Caption Merger (`src/app/session/[id]/page.tsx`, conversation view) -/

/-- A parsed caption cue (`SubtitleCue`); times are modelled as rationals. -/
structure Cue where
  start : ℚ
  endTime : ℚ
  text : String

/-- The `source` tag attached during the merge. -/
inductive CueSource where
  | screen
  | mic
deriving DecidableEq

/-- A cue tagged with its source. -/
structure TaggedCue where
  start : ℚ
  endTime : ℚ
  text : String
  source : CueSource

/-- `{...cue, source}`. -/
def tagCue (src : CueSource) (c : Cue) : TaggedCue := ⟨c.start, c.endTime, c.text, src⟩

/-- The comparator `(a, b) => a.start - b.start` as the ordering it sorts
by; JS `Array.prototype.sort` is a stable sort, modelled by `mergeSort`. -/
def cueLe (a b : TaggedCue) : Bool := decide (a.start ≤ b.start)

/-- The conversation-view merge: tag the screen cues and the selected mic
cues, concatenate, and stable-sort ascending by start time. -/
def mergeCues (screenCues micCues : List Cue) : List TaggedCue :=
  (screenCues.map (tagCue .screen) ++ micCues.map (tagCue .mic)).mergeSort cueLe

/-- `isActive = currentTime >= cue.start && currentTime < cue.end`. -/
def isActive (currentTime : ℚ) (c : TaggedCue) : Bool :=
  decide (c.start ≤ currentTime) && decide (currentTime < c.endTime)

/-! ## Audio Analyzer (`src/app/session/[id]/page.tsx`, statistics pass) -/

/-- The four accumulators of the single statistics loop. -/
structure RawStats where
  peak : ℚ
  sumSq : ℚ
  silent : Nat
  clip : Nat
deriving DecidableEq

/-- The silence threshold `0.01` (about -40 dB). -/
def silenceThreshold : ℚ := 1 / 100

/-- The clipping amplitude `0.99`. -/
def clipLevel : ℚ := 99 / 100

/-- One iteration of the statistics loop: track the running peak, the sum of
squares, the count of samples below the silence threshold, and the count of
samples at or above the clipping level. -/
def statsStep (st : RawStats) (x : ℚ) : RawStats :=
  { peak := if |x| > st.peak then |x| else st.peak
    sumSq := st.sumSq + x * x
    silent := if |x| < silenceThreshold then st.silent + 1 else st.silent
    clip := if |x| ≥ clipLevel then st.clip + 1 else st.clip }

/-- The statistics loop over the whole sample buffer. -/
def statsLoop (samples : List ℚ) : RawStats := samples.foldl statsStep ⟨0, 0, 0, 0⟩

/-- `silencePercent = (silentSamples / rawData.length) * 100`. -/
def silencePercent (samples : List ℚ) : ℚ :=
  ((statsLoop samples).silent : ℚ) / (samples.length : ℚ) * 100

/-- `clipping = clippingSamples > 100`. -/
def clipping (samples : List ℚ) : Bool := decide ((statsLoop samples).clip > 100)

/-- `toDb`: `-Infinity` (here `none`) for a non-positive amplitude, else
`20 * log10 v`. -/
noncomputable def toDb (v : ℝ) : Option ℝ :=
  if v ≤ 0 then none else some (20 * Real.logb 10 v)

/-- The `isFinite(x) ? x : -60` display clamp. -/
noncomputable def finiteOr60 (x : Option ℝ) : ℝ := x.getD (-60)

/-- `rms = sqrt(sumSquares / rawData.length)`. -/
noncomputable def rmsOf (samples : List ℚ) : ℝ :=
  Real.sqrt (((statsLoop samples).sumSq : ℝ) / (samples.length : ℝ))

/-- The displayed peak level in dB. -/
noncomputable def peakDbStat (samples : List ℚ) : ℝ :=
  finiteOr60 (toDb ((statsLoop samples).peak : ℝ))

/-- The displayed RMS level in dB. -/
noncomputable def rmsDbStat (samples : List ℚ) : ℝ :=
  finiteOr60 (toDb (rmsOf samples))

/-- The eight presence flags of a session, as a boolean vector in source
order. -/
def flagsVec (s : Session) : List Bool :=
  [s.hasScreenVideo, s.hasScreenAudio, s.hasCameraVideo, s.hasAudioRaw,
   s.hasAudioClean, s.hasTranscriptionScreen, s.hasTranscriptionRaw,
   s.hasTranscriptionClean]

/-- The flag vector a single classified role turns on (all-false for
`unknown`). -/
def roleVec (t : FileType) : List Bool :=
  [t == FileType.screenVideo, t == FileType.screenAudio, t == FileType.cameraVideo,
   t == FileType.audioRaw, t == FileType.audioClean, t == FileType.transcriptionScreen,
   t == FileType.transcriptionRaw, t == FileType.transcriptionClean]

/-- Pointwise disjunction of flag vectors. -/
def orVec (a b : List Bool) : List Bool := List.zipWith or a b

/-- Number of set flags. -/
def trueCount (v : List Bool) : Nat := v.countP id

/-! ## Theorems -/

/-- C3: `getFileType` is a total deterministic function into the fixed role
values; `.../audio/clean.vtt` is classified as the clean transcript,
`.../audio/clean.wav` as clean audio, and a key containing none of the fixed
fragments is classified `unknown`. -/
theorem c3_classify_total_deterministic :
    (∀ k₁ k₂ : String, k₁ = k₂ → getFileType k₁ = getFileType k₂) ∧
    (∀ k : String,
      getFileType k = FileType.screenVideo ∨ getFileType k = FileType.screenAudio ∨
      getFileType k = FileType.cameraVideo ∨ getFileType k = FileType.audioRaw ∨
      getFileType k = FileType.audioClean ∨ getFileType k = FileType.transcriptionScreen ∨
      getFileType k = FileType.transcriptionRaw ∨ getFileType k = FileType.transcriptionClean ∨
      getFileType k = FileType.unknown) ∧
    getFileType "org/dev/2024/01/01/10-00-00_sess1/audio/clean.vtt" = FileType.transcriptionClean ∧
    getFileType "org/dev/2024/01/01/10-00-00_sess1/audio/clean.wav" = FileType.audioClean ∧
    (∀ k : String,
      strContains k "screen/video" = false →
      strContains k "screen/audio.wav" = false →
      strContains k "screen/audio.vtt" = false →
      strContains k "camera/video" = false →
      strContains k "audio/raw.wav" = false →
      strContains k "audio/raw.vtt" = false →
      strContains k "audio/clean.wav" = false →
      strContains k "audio/clean.vtt" = false →
      getFileType k = FileType.unknown) := by
  refine ⟨fun k₁ k₂ h => by rw [h], fun k => ?_, by decide, by decide,
    fun k h1 h2 h3 h4 h5 h6 h7 h8 => by simp [getFileType, h1, h2, h3, h4, h5, h6, h7, h8]⟩
  cases h : getFileType k <;> simp [h]

/-- Witness for C3 at concrete keys. -/
theorem c3_witness :
    getFileType "abc" = getFileType "abc" ∧
    getFileType "some/other/key.txt" = FileType.unknown :=
  ⟨c3_classify_total_deterministic.1 "abc" "abc" rfl,
   c3_classify_total_deterministic.2.2.2.2 "some/other/key.txt"
     (by decide) (by decide) (by decide) (by decide)
     (by decide) (by decide) (by decide) (by decide)⟩

/-- C9: `parseFullId` is total and never throws: a string matching the
source pattern `HH-MM-SS_<rest>` — a non-empty rest containing no line
terminator, since JS `.` without the `s` flag excludes them — splits into its
time part and the rest, and any non-matching input (including one whose rest
holds a newline) yields the `00-00-00` fallback with the input itself as
display id. -/
theorem c9_parse_fullid_total :
    (∀ t rest : String, timeShape t = true → rest ≠ "" →
       rest.data.all (fun ch => !isLineTerm ch) = true →
       parseFullId (t ++ "_" ++ rest) = ⟨t, rest⟩) ∧
    parseFullId "09-15-30_sess_abc123" = ⟨"09-15-30", "sess_abc123"⟩ ∧
    (∀ s : String, matchesFullId s = false → parseFullId s = ⟨"00-00-00", s⟩) ∧
    parseFullId "09-15-30_a\nb" = ⟨"00-00-00", "09-15-30_a\nb"⟩ := by
  refine ⟨?_, by decide, ?_, by decide⟩
  · intro t rest ht hr hterm
    obtain ⟨cs⟩ := t
    obtain ⟨rs⟩ := rest
    rcases rs with _ | ⟨r, rs'⟩
    · exact absurd rfl hr
    have hterm' : (r :: rs').all (fun ch => !isLineTerm ch) = true := hterm
    rcases cs with _ | ⟨a, cs⟩
    · simp [timeShape] at ht
    rcases cs with _ | ⟨b, cs⟩
    · simp [timeShape] at ht
    rcases cs with _ | ⟨c, cs⟩
    · simp [timeShape] at ht
    rcases cs with _ | ⟨d, cs⟩
    · simp [timeShape] at ht
    rcases cs with _ | ⟨e, cs⟩
    · simp [timeShape] at ht
    rcases cs with _ | ⟨f, cs⟩
    · simp [timeShape] at ht
    rcases cs with _ | ⟨g, cs⟩
    · simp [timeShape] at ht
    rcases cs with _ | ⟨h8, cs⟩
    · simp [timeShape] at ht
    rcases cs with _ | ⟨x, xs⟩
    on_goal 2 => simp [timeShape] at ht
    simp only [timeShape, Bool.and_eq_true, beq_iff_eq, and_assoc] at ht
    obtain ⟨ha, hb, hc, hd, he, hf, hg, hh⟩ := ht
    have hdata : (String.mk [a, b, c, d, e, f, g, h8] ++ "_" ++ String.mk (r :: rs')).data
        = a :: b :: c :: d :: e :: f :: g :: h8 :: '_' :: r :: rs' := by
      simp [String.data_append]
    unfold parseFullId
    rw [hdata]
    simp [fullIdMatch, ha, hb, hc, hd, he, hf, hg, hh, hterm']
  · intro s hs
    cases h' : fullIdMatch s.data with
    | none => simp [parseFullId, h']
    | some v => simp [matchesFullId, h'] at hs

/-- Witness for C9 at the spec's concrete inputs. -/
theorem c9_witness :
    parseFullId ("09-15-30" ++ "_" ++ "sess_abc123") = ⟨"09-15-30", "sess_abc123"⟩ ∧
    parseFullId "not-a-valid-name" = ⟨"00-00-00", "not-a-valid-name"⟩ :=
  ⟨c9_parse_fullid_total.1 "09-15-30" "sess_abc123" (by decide) (by decide) (by decide),
   c9_parse_fullid_total.2.2.1 "not-a-valid-name" (by decide)⟩

/-- C2: an object whose key has fewer than 7 slash-separated segments, or
whose year/month/day segments fail the fixed-width numeric patterns, is
silently skipped: the aggregation result with that object inserted anywhere
equals the result without it, and a stray top-level key like
`randomfile.txt` produces no phantom session. -/
theorem c2_malformed_keys_skipped (org device : String) (o : S3Obj) (l₁ l₂ : List S3Obj)
    (h : (splitParts o.key).length < 7 ∨
      ¬(isDigit4 ((splitParts o.key).getD 2 "") = true ∧
        isDigit2 ((splitParts o.key).getD 3 "") = true ∧
        isDigit2 ((splitParts o.key).getD 4 "") = true)) :
    aggregate org device (l₁ ++ o :: l₂) = aggregate org device (l₁ ++ l₂) ∧
    aggregate "acme" "dev1" [⟨"randomfile.txt", 5, 7⟩] = [] := by
  have hpk : parseKey o.key = none := by
    by_cases hlen : (splitParts o.key).length < 7
    · simp [parseKey, hlen]
    · have hcond : ¬(isDigit4 ((splitParts o.key).getD 2 "") = true ∧
          isDigit2 ((splitParts o.key).getD 3 "") = true ∧
          isDigit2 ((splitParts o.key).getD 4 "") = true) := by
        rcases h with h | h
        · exact absurd h hlen
        · exact h
      have hbool : (isDigit4 ((splitParts o.key).getD 2 "") &&
          isDigit2 ((splitParts o.key).getD 3 "") &&
          isDigit2 ((splitParts o.key).getD 4 "")) ≠ true := by
        intro hb
        simp only [Bool.and_eq_true] at hb
        exact hcond ⟨hb.1.1, hb.1.2, hb.2⟩
      simp only [parseKey]
      rw [if_neg hlen, if_neg hbool]
  have hacc : objAccepted o = none := by
    unfold objAccepted
    split <;> simp [hpk]
  have hskip : ∀ m, processObj org device m o = m := fun m => by
    simp [processObj, hacc]
  refine ⟨?_, by decide⟩
  unfold aggregate
  rw [List.foldl_append, List.foldl_append, List.foldl_cons, hskip]

/-- Witness for C2: a one-segment key inserted after a valid object changes
nothing, and alone it yields no session. -/
theorem c2_witness :
    aggregate "acme" "dev1"
        ([⟨"acme/dev1/2024/01/02/10-00-00_sess1/audio/raw.wav", 4, 1⟩] ++
          ⟨"randomfile.txt", 5, 7⟩ :: []) =
      aggregate "acme" "dev1"
        ([⟨"acme/dev1/2024/01/02/10-00-00_sess1/audio/raw.wav", 4, 1⟩] ++ []) ∧
    aggregate "acme" "dev1" [⟨"randomfile.txt", 5, 7⟩] = [] :=
  c2_malformed_keys_skipped "acme" "dev1" ⟨"randomfile.txt", 5, 7⟩ _ _ (Or.inl (by decide))

/-- Looking a key up after the in-place update the loop applies to the
session map. -/
theorem mapFind_map_update (m : SessionsMap) (p q : String) (f : Session → Session) :
    mapFind (m.map (fun e => if e.1 = p then (p, f e.2) else e)) q =
      if q = p then (mapFind m q).map f else mapFind m q := by
  induction m with
  | nil => by_cases hq : q = p <;> simp [mapFind, hq]
  | cons e rest ih =>
    obtain ⟨k, s⟩ := e
    simp only [List.map_cons]
    by_cases hk : k = p
    · subst hk
      simp only [if_pos rfl]
      by_cases hq : q = k
      · subst hq
        simp [mapFind]
      · have hq' : ¬(k = q) := fun h => hq h.symm
        simp [mapFind, hq, hq', ih]
    · simp only [if_neg hk]
      by_cases hkq : k = q
      · subst hkq
        simp [mapFind, hk]
      · simp [mapFind, hkq, ih]

/-- Looking a key up after appending one fresh entry to the session map. -/
theorem mapFind_append_single (m : SessionsMap) (q : String) (s : Session) (p : String) :
    mapFind (m ++ [(q, s)]) p =
      match mapFind m p with
      | some x => some x
      | none => if q = p then some s else none := by
  induction m with
  | nil => simp [mapFind]
  | cons e rest ih =>
    obtain ⟨k, t⟩ := e
    by_cases hk : k = p <;> simp [mapFind, hk, ih]

/-- Effect of one loop iteration on the entry at a given session path. -/
theorem mapFind_processObj (org device : String) (m : SessionsMap) (o : S3Obj) (p : String) :
    mapFind (processObj org device m o) p =
      if objHitsPath org device p o then
        some (addObj ((mapFind m p).getD (freshFor org device o)) o)
      else mapFind m p := by
  cases hacc : objAccepted o with
  | none => simp [processObj, objHitsPath, hacc]
  | some kp =>
    have hup := fun (base : SessionsMap) =>
      mapFind_map_update base (sessionPath org device kp) p (fun s => addObj s o)
    simp only [processObj, objHitsPath, freshFor, hacc]
    by_cases hqp : p = sessionPath org device kp
    · subst hqp
      cases hms : mapFind m (sessionPath org device kp) with
      | some s₀ => simp [hup, hms]
      | none => simp [hup, hms, mapFind_append_single]
    · have hd : (decide (sessionPath org device kp = p)) = false :=
        decide_eq_false (fun h => hqp h.symm)
      rw [hd]
      simp only [Bool.false_eq_true, if_false]
      cases hms : mapFind m (sessionPath org device kp) with
      | some s₀ => simp [hup, hms, hqp]
      | none =>
        simp only [hup, hms, Option.isSome_none, Bool.false_eq_true, if_false,
          if_neg hqp, mapFind_append_single]
        have hqp' : ¬sessionPath org device kp = p := fun h => hqp h.symm
        cases hmp : mapFind m p <;> simp [hmp, hqp']

/-- The session record at a path, over a whole fold of the loop body. -/
theorem mapFind_foldl_aggregate (org device : String) (objs : List S3Obj) (m : SessionsMap)
    (p : String) :
    mapFind (objs.foldl (processObj org device) m) p =
      match mapFind m p with
      | some s => some ((objsAt org device p objs).foldl addObj s)
      | none =>
        match objsAt org device p objs with
        | [] => none
        | o :: rest => some (rest.foldl addObj (addObj (freshFor org device o) o)) := by
  induction objs generalizing m with
  | nil => cases hms : mapFind m p <;> simp [objsAt, hms]
  | cons o os ih =>
    rw [List.foldl_cons, ih, mapFind_processObj]
    cases hit : objHitsPath org device p o with
    | true =>
      simp only [if_pos rfl]
      cases hms : mapFind m p with
      | some s => simp [objsAt, List.filter_cons, hit, hms]
      | none => simp [objsAt, List.filter_cons, hit, hms]
    | false =>
      simp only [Bool.false_eq_true, if_false]
      cases hms : mapFind m p <;> simp [objsAt, List.filter_cons, hit, hms]

/-- The session record at a path after the whole aggregation pass. -/
theorem mapFind_aggregate (org device : String) (objs : List S3Obj) (p : String) :
    mapFind (aggregate org device objs) p =
      match objsAt org device p objs with
      | [] => none
      | o :: rest => some (rest.foldl addObj (addObj (freshFor org device o) o)) := by
  unfold aggregate
  rw [mapFind_foldl_aggregate]
  rfl

/-- Files accumulated by a fold of the per-object step. -/
theorem foldl_addObj_files (l : List S3Obj) (s : Session) :
    (l.foldl addObj s).files = s.files ++ l.map mkFile := by
  induction l generalizing s with
  | nil => simp
  | cons o os ih => simp [ih, addObj]

/-- Total size accumulated by a fold of the per-object step. -/
theorem foldl_addObj_totalSize (l : List S3Obj) (s : Session) :
    (l.foldl addObj s).totalSize = s.totalSize + (l.map S3Obj.size).sum := by
  induction l generalizing s with
  | nil => simp
  | cons o os ih => simp [ih, addObj, Nat.add_assoc]

/-- Screen-video flag accumulated by a fold of the per-object step. -/
theorem foldl_addObj_hasScreenVideo (l : List S3Obj) (s : Session) :
    (l.foldl addObj s).hasScreenVideo =
      (s.hasScreenVideo || l.any fun o => getFileType o.key == FileType.screenVideo) := by
  induction l generalizing s with
  | nil => simp
  | cons o os ih => simp [ih, addObj, Bool.or_assoc]

/-- Screen-audio flag accumulated by a fold of the per-object step. -/
theorem foldl_addObj_hasScreenAudio (l : List S3Obj) (s : Session) :
    (l.foldl addObj s).hasScreenAudio =
      (s.hasScreenAudio || l.any fun o => getFileType o.key == FileType.screenAudio) := by
  induction l generalizing s with
  | nil => simp
  | cons o os ih => simp [ih, addObj, Bool.or_assoc]

/-- Camera-video flag accumulated by a fold of the per-object step. -/
theorem foldl_addObj_hasCameraVideo (l : List S3Obj) (s : Session) :
    (l.foldl addObj s).hasCameraVideo =
      (s.hasCameraVideo || l.any fun o => getFileType o.key == FileType.cameraVideo) := by
  induction l generalizing s with
  | nil => simp
  | cons o os ih => simp [ih, addObj, Bool.or_assoc]

/-- Raw-audio flag accumulated by a fold of the per-object step. -/
theorem foldl_addObj_hasAudioRaw (l : List S3Obj) (s : Session) :
    (l.foldl addObj s).hasAudioRaw =
      (s.hasAudioRaw || l.any fun o => getFileType o.key == FileType.audioRaw) := by
  induction l generalizing s with
  | nil => simp
  | cons o os ih => simp [ih, addObj, Bool.or_assoc]

/-- Clean-audio flag accumulated by a fold of the per-object step. -/
theorem foldl_addObj_hasAudioClean (l : List S3Obj) (s : Session) :
    (l.foldl addObj s).hasAudioClean =
      (s.hasAudioClean || l.any fun o => getFileType o.key == FileType.audioClean) := by
  induction l generalizing s with
  | nil => simp
  | cons o os ih => simp [ih, addObj, Bool.or_assoc]

/-- Screen-transcript flag accumulated by a fold of the per-object step. -/
theorem foldl_addObj_hasTranscriptionScreen (l : List S3Obj) (s : Session) :
    (l.foldl addObj s).hasTranscriptionScreen =
      (s.hasTranscriptionScreen ||
        l.any fun o => getFileType o.key == FileType.transcriptionScreen) := by
  induction l generalizing s with
  | nil => simp
  | cons o os ih => simp [ih, addObj, Bool.or_assoc]

/-- Raw-transcript flag accumulated by a fold of the per-object step. -/
theorem foldl_addObj_hasTranscriptionRaw (l : List S3Obj) (s : Session) :
    (l.foldl addObj s).hasTranscriptionRaw =
      (s.hasTranscriptionRaw ||
        l.any fun o => getFileType o.key == FileType.transcriptionRaw) := by
  induction l generalizing s with
  | nil => simp
  | cons o os ih => simp [ih, addObj, Bool.or_assoc]

/-- Clean-transcript flag accumulated by a fold of the per-object step. -/
theorem foldl_addObj_hasTranscriptionClean (l : List S3Obj) (s : Session) :
    (l.foldl addObj s).hasTranscriptionClean =
      (s.hasTranscriptionClean ||
        l.any fun o => getFileType o.key == FileType.transcriptionClean) := by
  induction l generalizing s with
  | nil => simp
  | cons o os ih => simp [ih, addObj, Bool.or_assoc]

/-- A freshly created session record carries no files. -/
theorem freshFor_files (org device : String) (o : S3Obj) :
    (freshFor org device o).files = [] := by
  cases h : objAccepted o <;> simp [freshFor, h, freshSession, emptySession]

/-- A freshly created session record has zero total size. -/
theorem freshFor_totalSize (org device : String) (o : S3Obj) :
    (freshFor org device o).totalSize = 0 := by
  cases h : objAccepted o <;> simp [freshFor, h, freshSession, emptySession]

/-- A freshly created session record has all flags cleared. -/
theorem freshFor_flags (org device : String) (o : S3Obj) :
    (freshFor org device o).hasScreenVideo = false ∧
    (freshFor org device o).hasScreenAudio = false ∧
    (freshFor org device o).hasCameraVideo = false ∧
    (freshFor org device o).hasAudioRaw = false ∧
    (freshFor org device o).hasAudioClean = false ∧
    (freshFor org device o).hasTranscriptionScreen = false ∧
    (freshFor org device o).hasTranscriptionRaw = false ∧
    (freshFor org device o).hasTranscriptionClean = false := by
  cases h : objAccepted o <;> simp [freshFor, h, freshSession, emptySession]

/-- `List.any` is invariant under permutation. -/
theorem perm_any_eq {α : Type} {l₁ l₂ : List α} (h : l₁.Perm l₂) (f : α → Bool) :
    l₁.any f = l₂.any f := by
  induction h with
  | nil => rfl
  | cons x _ ih => simp [ih]
  | swap x y l => simp [Bool.or_left_comm]
  | trans _ _ ih₁ ih₂ => rw [ih₁, ih₂]

/-- The files of a session built from its first object and the rest. -/
theorem sessionBuild_files (org device : String) (o : S3Obj) (rest : List S3Obj) :
    (rest.foldl addObj (addObj (freshFor org device o) o)).files = (o :: rest).map mkFile := by
  rw [foldl_addObj_files]
  simp [addObj, freshFor_files]

/-- The total size of a session built from its first object and the rest. -/
theorem sessionBuild_totalSize (org device : String) (o : S3Obj) (rest : List S3Obj) :
    (rest.foldl addObj (addObj (freshFor org device o) o)).totalSize =
      ((o :: rest).map S3Obj.size).sum := by
  rw [foldl_addObj_totalSize]
  simp [addObj, freshFor_totalSize]

/-- Screen-video flag of a built session is a disjunction over its objects. -/
theorem sessionBuild_hasScreenVideo (org device : String) (o : S3Obj) (rest : List S3Obj) :
    (rest.foldl addObj (addObj (freshFor org device o) o)).hasScreenVideo =
      (o :: rest).any (fun o' => getFileType o'.key == FileType.screenVideo) := by
  rw [foldl_addObj_hasScreenVideo]
  simp [addObj, (freshFor_flags org device o).1]

/-- Screen-audio flag of a built session is a disjunction over its objects. -/
theorem sessionBuild_hasScreenAudio (org device : String) (o : S3Obj) (rest : List S3Obj) :
    (rest.foldl addObj (addObj (freshFor org device o) o)).hasScreenAudio =
      (o :: rest).any (fun o' => getFileType o'.key == FileType.screenAudio) := by
  rw [foldl_addObj_hasScreenAudio]
  simp [addObj, (freshFor_flags org device o).2.1]

/-- Camera-video flag of a built session is a disjunction over its objects. -/
theorem sessionBuild_hasCameraVideo (org device : String) (o : S3Obj) (rest : List S3Obj) :
    (rest.foldl addObj (addObj (freshFor org device o) o)).hasCameraVideo =
      (o :: rest).any (fun o' => getFileType o'.key == FileType.cameraVideo) := by
  rw [foldl_addObj_hasCameraVideo]
  simp [addObj, (freshFor_flags org device o).2.2.1]

/-- Raw-audio flag of a built session is a disjunction over its objects. -/
theorem sessionBuild_hasAudioRaw (org device : String) (o : S3Obj) (rest : List S3Obj) :
    (rest.foldl addObj (addObj (freshFor org device o) o)).hasAudioRaw =
      (o :: rest).any (fun o' => getFileType o'.key == FileType.audioRaw) := by
  rw [foldl_addObj_hasAudioRaw]
  simp [addObj, (freshFor_flags org device o).2.2.2.1]

/-- Clean-audio flag of a built session is a disjunction over its objects. -/
theorem sessionBuild_hasAudioClean (org device : String) (o : S3Obj) (rest : List S3Obj) :
    (rest.foldl addObj (addObj (freshFor org device o) o)).hasAudioClean =
      (o :: rest).any (fun o' => getFileType o'.key == FileType.audioClean) := by
  rw [foldl_addObj_hasAudioClean]
  simp [addObj, (freshFor_flags org device o).2.2.2.2.1]

/-- Screen-transcript flag of a built session is a disjunction over its objects. -/
theorem sessionBuild_hasTranscriptionScreen (org device : String) (o : S3Obj)
    (rest : List S3Obj) :
    (rest.foldl addObj (addObj (freshFor org device o) o)).hasTranscriptionScreen =
      (o :: rest).any (fun o' => getFileType o'.key == FileType.transcriptionScreen) := by
  rw [foldl_addObj_hasTranscriptionScreen]
  simp [addObj, (freshFor_flags org device o).2.2.2.2.2.1]

/-- Raw-transcript flag of a built session is a disjunction over its objects. -/
theorem sessionBuild_hasTranscriptionRaw (org device : String) (o : S3Obj)
    (rest : List S3Obj) :
    (rest.foldl addObj (addObj (freshFor org device o) o)).hasTranscriptionRaw =
      (o :: rest).any (fun o' => getFileType o'.key == FileType.transcriptionRaw) := by
  rw [foldl_addObj_hasTranscriptionRaw]
  simp [addObj, (freshFor_flags org device o).2.2.2.2.2.2.1]

/-- Clean-transcript flag of a built session is a disjunction over its objects. -/
theorem sessionBuild_hasTranscriptionClean (org device : String) (o : S3Obj)
    (rest : List S3Obj) :
    (rest.foldl addObj (addObj (freshFor org device o) o)).hasTranscriptionClean =
      (o :: rest).any (fun o' => getFileType o'.key == FileType.transcriptionClean) := by
  rw [foldl_addObj_hasTranscriptionClean]
  simp [addObj, (freshFor_flags org device o).2.2.2.2.2.2.2]

/-- C4: the Session Aggregator is order-independent. For any two permutations
of the same object list and any session path, the resulting record exists in
one run exactly when it exists in the other, with files lists that are
permutations of each other and identical total size and presence flags. -/
theorem c4_aggregation_order_independent (org device : String) (l₁ l₂ : List S3Obj)
    (hperm : l₁.Perm l₂) (p : String) :
    (mapFind (aggregate org device l₁) p = none ↔
      mapFind (aggregate org device l₂) p = none) ∧
    ((mapFind (aggregate org device l₁) p).getD emptySession).files.Perm
      ((mapFind (aggregate org device l₂) p).getD emptySession).files ∧
    ((mapFind (aggregate org device l₁) p).getD emptySession).totalSize =
      ((mapFind (aggregate org device l₂) p).getD emptySession).totalSize ∧
    ((mapFind (aggregate org device l₁) p).getD emptySession).hasScreenVideo =
      ((mapFind (aggregate org device l₂) p).getD emptySession).hasScreenVideo ∧
    ((mapFind (aggregate org device l₁) p).getD emptySession).hasScreenAudio =
      ((mapFind (aggregate org device l₂) p).getD emptySession).hasScreenAudio ∧
    ((mapFind (aggregate org device l₁) p).getD emptySession).hasCameraVideo =
      ((mapFind (aggregate org device l₂) p).getD emptySession).hasCameraVideo ∧
    ((mapFind (aggregate org device l₁) p).getD emptySession).hasAudioRaw =
      ((mapFind (aggregate org device l₂) p).getD emptySession).hasAudioRaw ∧
    ((mapFind (aggregate org device l₁) p).getD emptySession).hasAudioClean =
      ((mapFind (aggregate org device l₂) p).getD emptySession).hasAudioClean ∧
    ((mapFind (aggregate org device l₁) p).getD emptySession).hasTranscriptionScreen =
      ((mapFind (aggregate org device l₂) p).getD emptySession).hasTranscriptionScreen ∧
    ((mapFind (aggregate org device l₁) p).getD emptySession).hasTranscriptionRaw =
      ((mapFind (aggregate org device l₂) p).getD emptySession).hasTranscriptionRaw ∧
    ((mapFind (aggregate org device l₁) p).getD emptySession).hasTranscriptionClean =
      ((mapFind (aggregate org device l₂) p).getD emptySession).hasTranscriptionClean := by
  have hf : (objsAt org device p l₁).Perm (objsAt org device p l₂) :=
    hperm.filter _
  rw [mapFind_aggregate, mapFind_aggregate]
  cases h₁ : objsAt org device p l₁ with
  | nil =>
    cases h₂ : objsAt org device p l₂ with
    | nil => simp
    | cons o₂ r₂ =>
      rw [h₁, h₂] at hf
      exact absurd hf (by simp)
  | cons o₁ r₁ =>
    cases h₂ : objsAt org device p l₂ with
    | nil =>
      rw [h₁, h₂] at hf
      exact absurd hf (by simp)
    | cons o₂ r₂ =>
      rw [h₁, h₂] at hf
      refine ⟨by simp, ?_, ?_, ?_, ?_, ?_, ?_, ?_, ?_, ?_, ?_⟩
      · simp only [Option.getD_some]
        rw [sessionBuild_files, sessionBuild_files]
        exact hf.map mkFile
      · simp only [Option.getD_some]
        rw [sessionBuild_totalSize, sessionBuild_totalSize]
        exact List.Perm.sum_eq (hf.map S3Obj.size)
      · simp only [Option.getD_some]
        rw [sessionBuild_hasScreenVideo, sessionBuild_hasScreenVideo]
        exact perm_any_eq hf _
      · simp only [Option.getD_some]
        rw [sessionBuild_hasScreenAudio, sessionBuild_hasScreenAudio]
        exact perm_any_eq hf _
      · simp only [Option.getD_some]
        rw [sessionBuild_hasCameraVideo, sessionBuild_hasCameraVideo]
        exact perm_any_eq hf _
      · simp only [Option.getD_some]
        rw [sessionBuild_hasAudioRaw, sessionBuild_hasAudioRaw]
        exact perm_any_eq hf _
      · simp only [Option.getD_some]
        rw [sessionBuild_hasAudioClean, sessionBuild_hasAudioClean]
        exact perm_any_eq hf _
      · simp only [Option.getD_some]
        rw [sessionBuild_hasTranscriptionScreen, sessionBuild_hasTranscriptionScreen]
        exact perm_any_eq hf _
      · simp only [Option.getD_some]
        rw [sessionBuild_hasTranscriptionRaw, sessionBuild_hasTranscriptionRaw]
        exact perm_any_eq hf _
      · simp only [Option.getD_some]
        rw [sessionBuild_hasTranscriptionClean, sessionBuild_hasTranscriptionClean]
        exact perm_any_eq hf _

/-- First object of the C4 witness run. -/
def c4ObjA : S3Obj := ⟨"o/d/2024/01/02/10-00-00_s/screen/video.mp4", 3, 5⟩

/-- Second object of the C4 witness run. -/
def c4ObjB : S3Obj := ⟨"o/d/2024/01/02/10-00-00_s/audio/raw.wav", 4, 6⟩

/-- The session record found after aggregating the C4 witness objects in one
order. -/
def c4RunA : Option Session :=
  mapFind (aggregate "o" "d" [c4ObjA, c4ObjB]) "o/d/2024/01/02/10-00-00_s"

/-- The session record found after aggregating the C4 witness objects in the
other order. -/
def c4RunB : Option Session :=
  mapFind (aggregate "o" "d" [c4ObjB, c4ObjA]) "o/d/2024/01/02/10-00-00_s"

/-- Witness for C4 on a concrete two-object listing and its transposition. -/
theorem c4_witness :
    (c4RunA = none ↔ c4RunB = none) ∧
    (c4RunA.getD emptySession).files.Perm (c4RunB.getD emptySession).files ∧
    (c4RunA.getD emptySession).totalSize = (c4RunB.getD emptySession).totalSize ∧
    (c4RunA.getD emptySession).hasScreenVideo = (c4RunB.getD emptySession).hasScreenVideo ∧
    (c4RunA.getD emptySession).hasScreenAudio = (c4RunB.getD emptySession).hasScreenAudio ∧
    (c4RunA.getD emptySession).hasCameraVideo = (c4RunB.getD emptySession).hasCameraVideo ∧
    (c4RunA.getD emptySession).hasAudioRaw = (c4RunB.getD emptySession).hasAudioRaw ∧
    (c4RunA.getD emptySession).hasAudioClean = (c4RunB.getD emptySession).hasAudioClean ∧
    (c4RunA.getD emptySession).hasTranscriptionScreen =
      (c4RunB.getD emptySession).hasTranscriptionScreen ∧
    (c4RunA.getD emptySession).hasTranscriptionRaw =
      (c4RunB.getD emptySession).hasTranscriptionRaw ∧
    (c4RunA.getD emptySession).hasTranscriptionClean =
      (c4RunB.getD emptySession).hasTranscriptionClean :=
  c4_aggregation_order_independent "o" "d" [c4ObjA, c4ObjB] [c4ObjB, c4ObjA]
    (List.Perm.swap c4ObjB c4ObjA []) "o/d/2024/01/02/10-00-00_s"

/-- C1 counterexample: an object with a perfectly valid dated 7-segment key
but size 0 is dropped by the `!obj.Size` truthiness guard — the aggregation
produces no session at all, so the object is appended to no files list and
counted in no `totalSize`, contradicting the claim that every valid-keyed
listed object contributes. -/
theorem c1_zero_size_counterexample :
    parseKey "o/d/2024/01/02/10-00-00_s/screen/video.mp4" =
      some ⟨"2024", "01", "02", "10-00-00_s"⟩ ∧
    aggregate "o" "d" [⟨"o/d/2024/01/02/10-00-00_s/screen/video.mp4", 0, 5⟩] = [] ∧
    mapFind (aggregate "o" "d" [⟨"o/d/2024/01/02/10-00-00_s/screen/video.mp4", 0, 5⟩])
      "o/d/2024/01/02/10-00-00_s" = none :=
  ⟨by decide, by decide, by decide⟩

/-- C1 (amended): every listed object that passes the admission guard — a
non-empty key, a non-zero size, and the valid dated 7-segment shape — is
appended to its session's files list, counted in `totalSize`, and the
session's flags are exactly the disjunction of the one-hot flag vectors of
the classified roles of its objects; a single step sets exactly one flag for
a classified role and none for `unknown`. -/
theorem c1_amended_aggregation_contributions (org device : String) (objs : List S3Obj)
    (o : S3Obj) (kp : KeyParts) (hmem : o ∈ objs) (hacc : objAccepted o = some kp) :
    (∃ s, mapFind (aggregate org device objs) (sessionPath org device kp) = some s ∧
      mkFile o ∈ s.files ∧
      s.files = (objsAt org device (sessionPath org device kp) objs).map mkFile ∧
      s.totalSize =
        ((objsAt org device (sessionPath org device kp) objs).map S3Obj.size).sum ∧
      flagsVec s =
        [(objsAt org device (sessionPath org device kp) objs).any
            (fun o' => getFileType o'.key == FileType.screenVideo),
         (objsAt org device (sessionPath org device kp) objs).any
            (fun o' => getFileType o'.key == FileType.screenAudio),
         (objsAt org device (sessionPath org device kp) objs).any
            (fun o' => getFileType o'.key == FileType.cameraVideo),
         (objsAt org device (sessionPath org device kp) objs).any
            (fun o' => getFileType o'.key == FileType.audioRaw),
         (objsAt org device (sessionPath org device kp) objs).any
            (fun o' => getFileType o'.key == FileType.audioClean),
         (objsAt org device (sessionPath org device kp) objs).any
            (fun o' => getFileType o'.key == FileType.transcriptionScreen),
         (objsAt org device (sessionPath org device kp) objs).any
            (fun o' => getFileType o'.key == FileType.transcriptionRaw),
         (objsAt org device (sessionPath org device kp) objs).any
            (fun o' => getFileType o'.key == FileType.transcriptionClean)]) ∧
    (∀ (s' : Session) (o' : S3Obj),
      flagsVec (addObj s' o') = orVec (flagsVec s') (roleVec (getFileType o'.key))) ∧
    (∀ t : FileType, trueCount (roleVec t) = if t = FileType.unknown then 0 else 1) := by
  have hhit : objHitsPath org device (sessionPath org device kp) o = true := by
    simp [objHitsPath, hacc]
  have hmem' : o ∈ objsAt org device (sessionPath org device kp) objs :=
    List.mem_filter.mpr ⟨hmem, hhit⟩
  refine ⟨?_, fun s' o' => by simp [flagsVec, addObj, roleVec, orVec],
    fun t => by cases t <;> rfl⟩
  cases h : objsAt org device (sessionPath org device kp) objs with
  | nil => rw [h] at hmem'; simp at hmem'
  | cons o₀ rest =>
    refine ⟨rest.foldl addObj (addObj (freshFor org device o₀) o₀),
      by rw [mapFind_aggregate, h], ?_, ?_, ?_, ?_⟩
    · rw [sessionBuild_files, ← h]
      exact List.mem_map_of_mem mkFile hmem'
    · rw [sessionBuild_files, ← h]
    · rw [sessionBuild_totalSize, ← h]
    · simp only [flagsVec]
      rw [sessionBuild_hasScreenVideo, sessionBuild_hasScreenAudio,
        sessionBuild_hasCameraVideo, sessionBuild_hasAudioRaw,
        sessionBuild_hasAudioClean, sessionBuild_hasTranscriptionScreen,
        sessionBuild_hasTranscriptionRaw, sessionBuild_hasTranscriptionClean, ← h]

/-- The single object of the C1 witness run. -/
def c1Obj : S3Obj := ⟨"o/d/2024/01/02/10-00-00_s/screen/video.mp4", 3, 5⟩

/-- The parsed key segments of the C1 witness object. -/
def c1Parts : KeyParts := ⟨"2024", "01", "02", "10-00-00_s"⟩

/-- Witness for amended C1 on a concrete one-object listing. -/
theorem c1_amended_witness :
    (∃ s, mapFind (aggregate "o" "d" [c1Obj]) (sessionPath "o" "d" c1Parts) = some s ∧
      mkFile c1Obj ∈ s.files ∧
      s.files = (objsAt "o" "d" (sessionPath "o" "d" c1Parts) [c1Obj]).map mkFile ∧
      s.totalSize =
        ((objsAt "o" "d" (sessionPath "o" "d" c1Parts) [c1Obj]).map S3Obj.size).sum ∧
      flagsVec s =
        [(objsAt "o" "d" (sessionPath "o" "d" c1Parts) [c1Obj]).any
            (fun o' => getFileType o'.key == FileType.screenVideo),
         (objsAt "o" "d" (sessionPath "o" "d" c1Parts) [c1Obj]).any
            (fun o' => getFileType o'.key == FileType.screenAudio),
         (objsAt "o" "d" (sessionPath "o" "d" c1Parts) [c1Obj]).any
            (fun o' => getFileType o'.key == FileType.cameraVideo),
         (objsAt "o" "d" (sessionPath "o" "d" c1Parts) [c1Obj]).any
            (fun o' => getFileType o'.key == FileType.audioRaw),
         (objsAt "o" "d" (sessionPath "o" "d" c1Parts) [c1Obj]).any
            (fun o' => getFileType o'.key == FileType.audioClean),
         (objsAt "o" "d" (sessionPath "o" "d" c1Parts) [c1Obj]).any
            (fun o' => getFileType o'.key == FileType.transcriptionScreen),
         (objsAt "o" "d" (sessionPath "o" "d" c1Parts) [c1Obj]).any
            (fun o' => getFileType o'.key == FileType.transcriptionRaw),
         (objsAt "o" "d" (sessionPath "o" "d" c1Parts) [c1Obj]).any
            (fun o' => getFileType o'.key == FileType.transcriptionClean)]) ∧
    (∀ (s' : Session) (o' : S3Obj),
      flagsVec (addObj s' o') = orVec (flagsVec s') (roleVec (getFileType o'.key))) ∧
    (∀ t : FileType, trueCount (roleVec t) = if t = FileType.unknown then 0 else 1) :=
  c1_amended_aggregation_contributions "o" "d" [c1Obj] c1Obj c1Parts (by decide) (by decide)

/-- Object lookup after the in-place overwrite branch of `storePut`. -/
theorem storeGet_map_update (st : Store) (key : String) (v : ObjVal) (k' : String) :
    storeGet (st.map (fun e => if e.1 = key then (key, v) else e)) k' =
      if k' = key then (storeGet st k').map (fun _ => v) else storeGet st k' := by
  induction st with
  | nil => by_cases hk : k' = key <;> simp [storeGet, hk]
  | cons e rest ih =>
    obtain ⟨k, x⟩ := e
    simp only [List.map_cons]
    by_cases hk : k = key
    · subst hk
      simp only [if_pos rfl]
      by_cases hq : k' = k
      · subst hq
        simp [storeGet]
      · have hq' : ¬(k = k') := fun h => hq h.symm
        simp [storeGet, hq, hq', ih]
    · simp only [if_neg hk]
      by_cases hkq : k = k'
      · subst hkq
        simp [storeGet, hk]
      · simp [storeGet, hkq, ih]

/-- Object lookup after the append branch of `storePut`. -/
theorem storeGet_append_single (st : Store) (key : String) (v : ObjVal) (k' : String) :
    storeGet (st ++ [(key, v)]) k' =
      match storeGet st k' with
      | some x => some x
      | none => if key = k' then some v else none := by
  induction st with
  | nil => simp [storeGet]
  | cons e rest ih =>
    obtain ⟨k, x⟩ := e
    by_cases hk : k = k' <;> simp [storeGet, hk, ih]

/-- Reading back the key just written by `storePut`. -/
theorem storeGet_put_self (st : Store) (key : String) (v : ObjVal) :
    storeGet (storePut st key v) key = some v := by
  unfold storePut
  by_cases h : (storeGet st key).isSome = true
  · rw [if_pos h, storeGet_map_update]
    obtain ⟨x, hx⟩ := Option.isSome_iff_exists.mp h
    simp [hx]
  · rw [if_neg h, storeGet_append_single]
    have hn : storeGet st key = none := Option.not_isSome_iff_eq_none.mp h
    simp [hn]

/-- The overwrite branch of `storePut` leaves the key listing unchanged. -/
theorem map_fst_update (st : Store) (key : String) (v : ObjVal) :
    (st.map (fun e => if e.1 = key then (key, v) else e)).map Prod.fst =
      st.map Prod.fst := by
  induction st with
  | nil => simp
  | cons e rest ih =>
    obtain ⟨k, x⟩ := e
    by_cases hk : k = key <;> simp [hk, ih]

/-- The `findSessionPrefix` scan over concatenated key listings. -/
theorem scanForSession_append (fullId : String) (xs ys : List String) :
    scanForSession fullId (xs ++ ys) =
      match scanForSession fullId xs with
      | some r => some r
      | none => scanForSession fullId ys := by
  induction xs with
  | nil => simp [scanForSession]
  | cons k ks ih =>
    by_cases hk : keyMatchesSession fullId k = true <;> simp [scanForSession, hk, ih]

/-- Writing any object cannot change an already-successful session-prefix
resolution: the overwrite branch keeps the key listing, and the append branch
adds the new key after every already-scanned one. -/
theorem findSessionPath_storePut (st : Store) (key : String) (v : ObjVal)
    (org device fullId p : String)
    (h : findSessionPath st org device fullId = some p) :
    findSessionPath (storePut st key v) org device fullId = some p := by
  unfold findSessionPath at h ⊢
  unfold storePut
  by_cases hs : (storeGet st key).isSome = true
  · rw [if_pos hs, map_fst_update]
    exact h
  · rw [if_neg hs]
    simp only [List.map_append, List.map_cons, List.map_nil, List.filter_append,
      scanForSession_append]
    rw [h]

/-- C5: metadata reads are forgiving but writes are not.  When the session
prefix cannot be resolved, `getSessionMetadata` returns the defaults while
`updateSessionMetadata` errors with `Session not found` and leaves the store
untouched; when the prefix resolves but `metadata.json` is absent or
malformed, the read still returns the defaults. -/
theorem c5_reads_forgiving_writes_strict (st : Store) (org device fullId : String)
    (u : MetaUpdate) (p : String) :
    (findSessionPath st org device fullId = none →
      getSessionMetadata st org device fullId = ⟨false, none⟩ ∧
      updateSessionMetadata st org device fullId u = (.error "Session not found", st)) ∧
    (findSessionPath st org device fullId = some p →
      storeGet st (p ++ "/metadata.json") = none →
      getSessionMetadata st org device fullId = ⟨false, none⟩) ∧
    (findSessionPath st org device fullId = some p →
      storeGet st (p ++ "/metadata.json") = some ObjVal.malformed →
      getSessionMetadata st org device fullId = ⟨false, none⟩) := by
  refine ⟨fun h => ?_, fun h hms => ?_, fun h hms => ?_⟩
  · constructor
    · simp [getSessionMetadata, getSessionMetadataE, h]
    · simp [updateSessionMetadata, h]
  · simp [getSessionMetadata, getSessionMetadataE, h, hms]
  · simp [getSessionMetadata, getSessionMetadataE, readMetaVal, h, hms]

/-- The one-element store used by the C5 witness: a session object exists but
no metadata document does. -/
def c5Store : Store := [("acme/dev1/2024/01/02/10-00-00_sess1/audio/raw.wav", ObjVal.jsonOther)]

/-- Witness for C5: an unresolvable folder name gives defaults on read and an
error-without-write on update, and a resolvable one with no `metadata.json`
gives defaults on read. -/
theorem c5_witness :
    (getSessionMetadata c5Store "acme" "dev1" "missing" = ⟨false, none⟩ ∧
      updateSessionMetadata c5Store "acme" "dev1" "missing" ⟨some true, none⟩ =
        (.error "Session not found", c5Store)) ∧
    getSessionMetadata c5Store "acme" "dev1" "10-00-00_sess1" = ⟨false, none⟩ :=
  ⟨(c5_reads_forgiving_writes_strict c5Store "acme" "dev1" "missing" ⟨some true, none⟩ "").1
      (by decide),
   (c5_reads_forgiving_writes_strict c5Store "acme" "dev1" "10-00-00_sess1" ⟨none, none⟩
      "acme/dev1/2024/01/02/10-00-00_sess1").2.1 (by decide) (by decide)⟩

/-- Read-after-update for session metadata: once the prefix resolves, the
update returns the shallow merge and a subsequent read sees exactly it. -/
theorem metadata_get_after_update (st : Store) (org device fullId : String) (u : MetaUpdate)
    (p : String) (h : findSessionPath st org device fullId = some p) :
    (updateSessionMetadata st org device fullId u).1 =
      .ok (mergeMeta (getSessionMetadata st org device fullId) u) ∧
    getSessionMetadata (updateSessionMetadata st org device fullId u).2 org device fullId =
      mergeMeta (getSessionMetadata st org device fullId) u := by
  unfold updateSessionMetadata
  rw [h]
  dsimp only
  refine ⟨rfl, ?_⟩
  set M := mergeMeta (getSessionMetadata st org device fullId) u with hM
  have hf := findSessionPath_storePut st (p ++ "/metadata.json")
    (ObjVal.metaDoc (some M.favorite) M.score) org device fullId p h
  unfold getSessionMetadata getSessionMetadataE
  rw [hf]
  dsimp only
  rw [storeGet_put_self]
  rfl

/-- C6: `updateSessionMetadata` reads the current metadata, shallow-merges
the partial update over it, and writes the whole document back, so a
subsequent read returns the merge; fields not named in the partial update
keep their prior values, and on a session with no prior `metadata.json`,
updating `favorite` to true then reading yields `favorite = true` and a null
score. -/
theorem c6_metadata_roundtrip_merge (st : Store) (org device fullId : String)
    (u : MetaUpdate) (p : String)
    (h : findSessionPath st org device fullId = some p) :
    (updateSessionMetadata st org device fullId u).1 =
      .ok (mergeMeta (getSessionMetadata st org device fullId) u) ∧
    getSessionMetadata (updateSessionMetadata st org device fullId u).2 org device fullId =
      mergeMeta (getSessionMetadata st org device fullId) u ∧
    (u.favorite = none →
      (mergeMeta (getSessionMetadata st org device fullId) u).favorite =
        (getSessionMetadata st org device fullId).favorite) ∧
    (u.score = none →
      (mergeMeta (getSessionMetadata st org device fullId) u).score =
        (getSessionMetadata st org device fullId).score) ∧
    (storeGet st (p ++ "/metadata.json") = none →
      getSessionMetadata
          (updateSessionMetadata st org device fullId ⟨some true, none⟩).2 org device fullId =
        ⟨true, none⟩) := by
  obtain ⟨h1, h2⟩ := metadata_get_after_update st org device fullId u p h
  refine ⟨h1, h2, fun hf => by simp [mergeMeta, hf], fun hsc => by simp [mergeMeta, hsc],
    fun hms => ?_⟩
  obtain ⟨_, h2'⟩ := metadata_get_after_update st org device fullId ⟨some true, none⟩ p h
  rw [h2']
  have hget : getSessionMetadata st org device fullId = ⟨false, none⟩ := by
    simp [getSessionMetadata, getSessionMetadataE, h, hms]
  rw [hget]
  rfl

/-- The one-element store used by the C6 witness: the session resolves but
has no metadata document yet. -/
def c6Store : Store := [("acme/dev1/2024/01/02/10-00-00_sess1/audio/raw.wav", ObjVal.jsonOther)]

/-- Witness for C6: updating `favorite` on a session with no prior metadata
and reading it back returns `{favorite := true, score := none}`. -/
theorem c6_witness :
    (updateSessionMetadata c6Store "acme" "dev1" "10-00-00_sess1" ⟨some true, none⟩).1 =
      .ok (mergeMeta (getSessionMetadata c6Store "acme" "dev1" "10-00-00_sess1")
            ⟨some true, none⟩) ∧
    getSessionMetadata
        (updateSessionMetadata c6Store "acme" "dev1" "10-00-00_sess1" ⟨some true, none⟩).2
        "acme" "dev1" "10-00-00_sess1" = ⟨true, none⟩ :=
  ⟨(c6_metadata_roundtrip_merge c6Store "acme" "dev1" "10-00-00_sess1" ⟨some true, none⟩
      "acme/dev1/2024/01/02/10-00-00_sess1" (by decide)).1,
   (c6_metadata_roundtrip_merge c6Store "acme" "dev1" "10-00-00_sess1" ⟨some true, none⟩
      "acme/dev1/2024/01/02/10-00-00_sess1" (by decide)).2.2.2.2 (by decide)⟩

/-- Reading the notes document back right after it is saved. -/
theorem notes_get_after_put (st : Store) (org device fullId p : String) (ns : List Note)
    (h : findSessionPath st org device fullId = some p) :
    getSessionNotes (storePut st (p ++ "/notes.json") (ObjVal.notesDoc ns))
      org device fullId = ns := by
  have hf := findSessionPath_storePut st (p ++ "/notes.json") (ObjVal.notesDoc ns)
    org device fullId p h
  unfold getSessionNotes
  rw [hf]
  dsimp only
  rw [storeGet_put_self]
  rfl

/-- A non-empty notes read implies the session prefix resolved. -/
theorem getSessionNotes_resolves (st : Store) (org device fullId : String)
    (hne : getSessionNotes st org device fullId ≠ []) :
    ∃ p, findSessionPath st org device fullId = some p := by
  cases h : findSessionPath st org device fullId with
  | none =>
    unfold getSessionNotes at hne
    rw [h] at hne
    simp at hne
  | some p => exact ⟨p, rfl⟩

/-- C10: `updateNote` and `deleteNote` are atomic on a missing note id — when
no stored note carries the id, `updateNote` returns `null` and `deleteNote`
returns `false` and the store (hence the stored array) is unchanged; when the
id is found at index `i`, exactly that entry is merged or spliced out and all
other notes keep their positions. -/
theorem c10_note_ops_atomic (st : Store) (org device fullId noteId : String) (u : NoteUpdate) :
    ((getSessionNotes st org device fullId).findIdx? (fun n => n.id == noteId) = none ↔
      ∀ n ∈ getSessionNotes st org device fullId, ¬(n.id = noteId)) ∧
    ((getSessionNotes st org device fullId).findIdx? (fun n => n.id == noteId) = none →
      updateNote st org device fullId noteId u = .ok (none, st) ∧
      deleteNote st org device fullId noteId = .ok (false, st)) ∧
    (∀ i, (getSessionNotes st org device fullId).findIdx? (fun n => n.id == noteId) = some i →
      ∃ st', updateNote st org device fullId noteId u =
          .ok (some (applyNoteUpdate ((getSessionNotes st org device fullId).getD i dummyNote) u),
               st') ∧
        getSessionNotes st' org device fullId =
          (getSessionNotes st org device fullId).set i
            (applyNoteUpdate ((getSessionNotes st org device fullId).getD i dummyNote) u)) ∧
    (∀ i, (getSessionNotes st org device fullId).findIdx? (fun n => n.id == noteId) = some i →
      ∃ st', deleteNote st org device fullId noteId = .ok (true, st') ∧
        getSessionNotes st' org device fullId =
          (getSessionNotes st org device fullId).eraseIdx i) := by
  refine ⟨?_, fun hidx => ?_, fun i hidx => ?_, fun i hidx => ?_⟩
  · rw [List.findIdx?_eq_none_iff]
    constructor
    · intro hall n hn
      have := hall n hn
      simpa using this
    · intro hall n hn
      simpa using hall n hn
  · constructor
    · unfold updateNote
      dsimp only
      rw [hidx]
    · unfold deleteNote
      dsimp only
      rw [hidx]
  · have hne : getSessionNotes st org device fullId ≠ [] := by
      intro hnil
      rw [hnil] at hidx
      simp at hidx
    obtain ⟨p, hp⟩ := getSessionNotes_resolves st org device fullId hne
    refine ⟨storePut st (p ++ "/notes.json")
      (ObjVal.notesDoc ((getSessionNotes st org device fullId).set i
        (applyNoteUpdate ((getSessionNotes st org device fullId).getD i dummyNote) u))), ?_, ?_⟩
    · unfold updateNote
      dsimp only
      rw [hidx]
      dsimp only
      unfold saveSessionNotes
      rw [hp]
      rfl
    · exact notes_get_after_put st org device fullId p _ hp
  · have hne : getSessionNotes st org device fullId ≠ [] := by
      intro hnil
      rw [hnil] at hidx
      simp at hidx
    obtain ⟨p, hp⟩ := getSessionNotes_resolves st org device fullId hne
    refine ⟨storePut st (p ++ "/notes.json")
      (ObjVal.notesDoc ((getSessionNotes st org device fullId).eraseIdx i)), ?_, ?_⟩
    · unfold deleteNote
      dsimp only
      rw [hidx]
      dsimp only
      unfold saveSessionNotes
      rw [hp]
      rfl
    · exact notes_get_after_put st org device fullId p _ hp

/-- First stored note of the C10 witness. -/
def c10NoteA : Note := ⟨"n1", 5, NoteResource.global, "hello", "2024-01-02"⟩

/-- Second stored note of the C10 witness. -/
def c10NoteB : Note := ⟨"n2", 9, NoteResource.audioClean, "world", "2024-01-03"⟩

/-- The store used by the C10 witness: one session with two notes. -/
def c10Store : Store :=
  [("acme/dev1/2024/01/02/10-00-00_sess1/notes.json", ObjVal.notesDoc [c10NoteA, c10NoteB])]

/-- Witness for C10: a missing id changes nothing, and editing or deleting a
present id rewrites exactly that entry. -/
theorem c10_witness :
    (updateNote c10Store "acme" "dev1" "10-00-00_sess1" "zzz" ⟨some "x", none, none⟩ =
        .ok (none, c10Store) ∧
      deleteNote c10Store "acme" "dev1" "10-00-00_sess1" "zzz" = .ok (false, c10Store)) ∧
    (∃ st', updateNote c10Store "acme" "dev1" "10-00-00_sess1" "n2" ⟨some "edited", none, none⟩ =
        .ok (some (applyNoteUpdate
              ((getSessionNotes c10Store "acme" "dev1" "10-00-00_sess1").getD 1 dummyNote)
              ⟨some "edited", none, none⟩), st') ∧
      getSessionNotes st' "acme" "dev1" "10-00-00_sess1" =
        (getSessionNotes c10Store "acme" "dev1" "10-00-00_sess1").set 1
          (applyNoteUpdate
            ((getSessionNotes c10Store "acme" "dev1" "10-00-00_sess1").getD 1 dummyNote)
            ⟨some "edited", none, none⟩)) ∧
    (∃ st', deleteNote c10Store "acme" "dev1" "10-00-00_sess1" "n1" = .ok (true, st') ∧
      getSessionNotes st' "acme" "dev1" "10-00-00_sess1" =
        (getSessionNotes c10Store "acme" "dev1" "10-00-00_sess1").eraseIdx 0) :=
  ⟨(c10_note_ops_atomic c10Store "acme" "dev1" "10-00-00_sess1" "zzz"
      ⟨some "x", none, none⟩).2.1 (by decide),
   (c10_note_ops_atomic c10Store "acme" "dev1" "10-00-00_sess1" "n2"
      ⟨some "edited", none, none⟩).2.2.1 1 (by decide),
   (c10_note_ops_atomic c10Store "acme" "dev1" "10-00-00_sess1" "n1"
      ⟨none, none, none⟩).2.2.2 0 (by decide)⟩

/-- C7: the Caption Merger emits one source-tagged list sorted ascending by
start time that is a permutation of both tagged inputs (no deduplication or
overlap removal), and cue highlighting uses the half-open interval
`start <= t < end`: at playhead 3, a cue ending at 3 is inactive while a cue
starting at 3 is active. -/
theorem c7_caption_merge_sorted_halfopen (screenCues micCues : List Cue) :
    List.Pairwise (fun a b : TaggedCue => a.start ≤ b.start) (mergeCues screenCues micCues) ∧
    (mergeCues screenCues micCues).Perm
      (screenCues.map (tagCue .screen) ++ micCues.map (tagCue .mic)) ∧
    (∀ (t : ℚ) (c : TaggedCue), isActive t c = true ↔ (c.start ≤ t ∧ t < c.endTime)) ∧
    isActive 3 (tagCue .screen ⟨1, 3, "A"⟩) = false ∧
    isActive 3 (tagCue .mic ⟨3, 5, "B"⟩) = true := by
  refine ⟨?_, List.mergeSort_perm _ _, ?_, ?_, ?_⟩
  · have hs := @List.sorted_mergeSort TaggedCue cueLe
      (fun a b c hab hbc => by
        simp only [cueLe, decide_eq_true_eq] at hab hbc ⊢
        exact le_trans hab hbc)
      (fun a b => by
        simp only [cueLe, Bool.or_eq_true, decide_eq_true_eq]
        exact le_total a.start b.start)
      (screenCues.map (tagCue .screen) ++ micCues.map (tagCue .mic))
    exact hs.imp (fun hab => by simpa [cueLe] using hab)
  · intro t c
    simp [isActive]
  · show (decide ((1 : ℚ) ≤ 3) && decide ((3 : ℚ) < 3)) = false
    rw [decide_eq_false (by norm_num : ¬((3 : ℚ) < 3))]
    simp
  · show (decide ((3 : ℚ) ≤ 3) && decide ((3 : ℚ) < 5)) = true
    rw [decide_eq_true (by norm_num : ((3 : ℚ) ≤ 3)),
      decide_eq_true (by norm_num : ((3 : ℚ) < 5))]
    rfl

/-- The silent-sample counter of the statistics loop counts exactly the
samples strictly below the silence threshold. -/
theorem foldl_statsStep_silent (l : List ℚ) (st : RawStats) :
    (l.foldl statsStep st).silent =
      st.silent + l.countP (fun x => decide (|x| < silenceThreshold)) := by
  induction l generalizing st with
  | nil => simp
  | cons x xs ih =>
    rw [List.foldl_cons, ih, List.countP_cons]
    simp only [statsStep, decide_eq_true_eq]
    split_ifs with hx <;> omega

/-- The clipping counter of the statistics loop counts exactly the samples at
or above the clipping level. -/
theorem foldl_statsStep_clip (l : List ℚ) (st : RawStats) :
    (l.foldl statsStep st).clip =
      st.clip + l.countP (fun x => decide (clipLevel ≤ |x|)) := by
  induction l generalizing st with
  | nil => simp
  | cons x xs ih =>
    rw [List.foldl_cons, ih, List.countP_cons]
    simp only [statsStep, decide_eq_true_eq]
    split_ifs with hx <;> omega

/-- C8: the Audio Analyzer's summary statistics: silence percentage is the
count of samples with absolute value strictly below 0.01 over the buffer
length, times 100; the clipping flag is set exactly when strictly more than
100 samples have absolute value at least 0.99; and the displayed peak/RMS
levels are `20 * log10` of the amplitude, with a non-positive amplitude
(whose dB value is not finite) replaced by -60. -/
theorem c8_audio_stats (samples : List ℚ) (hne : 0 < samples.length) :
    silencePercent samples =
      ((samples.countP (fun x => decide (|x| < 1 / 100)) : ℚ) / (samples.length : ℚ)) * 100 ∧
    (clipping samples = true ↔
      100 < samples.countP (fun x => decide (99 / 100 ≤ |x|))) ∧
    peakDbStat samples =
      (if 0 < (statsLoop samples).peak then
        20 * Real.logb 10 (((statsLoop samples).peak : ℝ)) else -60) ∧
    rmsDbStat samples =
      (if 0 < rmsOf samples then 20 * Real.logb 10 (rmsOf samples) else -60) ∧
    ((samples.length : ℚ) ≠ 0) := by
  refine ⟨?_, ?_, ?_, ?_, Nat.cast_ne_zero.mpr (Nat.pos_iff_ne_zero.mp hne)⟩
  · unfold silencePercent statsLoop
    rw [foldl_statsStep_silent]
    dsimp only
    rw [Nat.zero_add]
    simp only [silenceThreshold]
  · unfold clipping statsLoop
    rw [foldl_statsStep_clip]
    dsimp only
    rw [Nat.zero_add]
    simp only [decide_eq_true_eq, clipLevel]
  · unfold peakDbStat finiteOr60 toDb
    by_cases hp : (statsLoop samples).peak ≤ 0
    · rw [if_pos (by exact_mod_cast hp : ((statsLoop samples).peak : ℝ) ≤ 0),
        if_neg (not_lt.mpr hp)]
      rfl
    · rw [if_neg (by exact_mod_cast hp : ¬((statsLoop samples).peak : ℝ) ≤ 0),
        if_pos (not_le.mp hp)]
      rfl
  · unfold rmsDbStat finiteOr60 toDb
    by_cases hr : rmsOf samples ≤ 0
    · rw [if_pos hr, if_neg (not_lt.mpr hr)]
      rfl
    · rw [if_neg hr, if_pos (not_le.mp hr)]
      rfl

/-- The concrete sample buffer of the C8 witness. -/
def c8Samples : List ℚ := [1 / 2, -1, 0, 1 / 200]

/-- Witness for C8 on a concrete four-sample buffer. -/
theorem c8_witness :
    silencePercent c8Samples =
      ((c8Samples.countP (fun x => decide (|x| < 1 / 100)) : ℚ) / (c8Samples.length : ℚ)) * 100 ∧
    (clipping c8Samples = true ↔
      100 < c8Samples.countP (fun x => decide (99 / 100 ≤ |x|))) ∧
    peakDbStat c8Samples =
      (if 0 < (statsLoop c8Samples).peak then
        20 * Real.logb 10 (((statsLoop c8Samples).peak : ℝ)) else -60) ∧
    rmsDbStat c8Samples =
      (if 0 < rmsOf c8Samples then 20 * Real.logb 10 (rmsOf c8Samples) else -60) ∧
    ((c8Samples.length : ℚ) ≠ 0) :=
  c8_audio_stats c8Samples (by decide)
